import Mathlib

/-!
Shallow embedding of `src/lib.rs` (`dex_arbitrage_router`), an Anchor program
that executes a batch of four arbitrage legs against external venues.

Modelling conventions:
* `Pubkey` is `Nat` (opaque 32-byte addresses with decidable equality).
* PDA / associated-token address derivation (`find_program_address`,
  `get_associated_token_address`) is an opaque deterministic pure function in
  the source (SHA-256 based); it is modelled by an injective encoding into a
  region of `Nat` disjoint from the small constants used for ordinary keys.
  No theorem below depends on anything but determinism of the derivation.
* `AccountInfo` keeps the fields the program inspects: the address (`key`),
  the owning program (`owner`), the data length (`dataLen`), and the result
  of `TokenAccount::try_deserialize` (`tokenData`, `none` when
  deserialization fails).
* u64 fields are `Nat`; theorems about byte encodings carry `< 2^64` bounds.
  `accounts_count` is a `u8` in the source, modelled as `Nat`.
* The external `invoke` primitive is modelled as recording a `Call`
  (instruction plus the `AccountInfo` list passed alongside); per the spec,
  claims that count calls assume invocations succeed, so `invoke` always
  succeeds in the model and the executor returns the list of calls issued.
  `BatchResult.err e calls` records a failure `e` together with the calls
  already issued before the failure (fail-fast semantics).
-/

abbrev Pubkey := Nat

structure TokenAccountData where
  owner : Pubkey
  mint : Pubkey
  deriving DecidableEq, Repr

structure AccountInfo where
  key : Pubkey
  owner : Pubkey
  dataLen : Nat
  tokenData : Option TokenAccountData
  deriving DecidableEq, Repr

/-- Supported DEX venues (`enum DexType`). -/
inductive DexType where
  | Meteora
  | PumpFun
  deriving DecidableEq, Repr

/-- Per-leg parameters (`struct ArbitrageParams`). -/
structure ArbitrageParams where
  token_mint : Pubkey
  amount_in : Nat
  min_wsol_out : Nat
  buy_dex : DexType
  sell_dex : DexType
  accounts_count : Nat
  tokens_to_buy : Nat
  max_sol_cost : Nat
  tokens_to_sell : Nat
  deriving DecidableEq, Repr

/-- Persistent router state (`struct RouterState`). -/
structure RouterState where
  owner : Pubkey
  is_paused : Bool
  bump : Nat
  deriving DecidableEq, Repr

/-- Error taxonomy (`enum MyErrorCode`). -/
inductive MyErrorCode where
  | ContractIsPaused
  | NotProfitable
  | ArithmeticError
  | UnauthorizedAccess
  | InvalidTokenAccount
  | InsufficientAccounts
  | InvalidDexType
  | TokenAccountNotFound
  | MintAccountNotFound
  | PDAAccountNotFound
  | AccountNotFound
  | InvalidProgramId
  | CpiError
  deriving DecidableEq, Repr

/-- One entry of an instruction's account list (`AccountMeta`). -/
structure AccountMeta where
  pubkey : Pubkey
  isSigner : Bool
  isWritable : Bool
  deriving DecidableEq, Repr

/-- An external instruction (`solana_program::instruction::Instruction`);
`data` is the payload byte list. -/
structure Instruction where
  programId : Pubkey
  accounts : List AccountMeta
  data : List Nat
  deriving DecidableEq, Repr

/-- One issued external call: the instruction handed to `invoke` together
with the `AccountInfo` list passed alongside it. -/
structure Call where
  instr : Instruction
  infos : List AccountInfo
  deriving DecidableEq, Repr

/-- Outcome of a batch: success with the calls issued, or the first error
together with the calls already issued before it. -/
inductive BatchResult where
  | ok (calls : List Call)
  | err (e : MyErrorCode) (callsBefore : List Call)
  deriving DecidableEq, Repr

/-- The accounts of the executing context that the loop reads
(`user`, `system_program`, `token_program`, `rent`). -/
structure ExecEnv where
  user : AccountInfo
  system_program : AccountInfo
  token_program : AccountInfo
  rent : AccountInfo
  deriving DecidableEq, Repr

/-- The resolved named bundle for one Pump.fun leg: the seven accounts found
by the scan loop plus the associated bonding-curve token account. -/
structure ResolvedPumpAccounts where
  pumpProgram : AccountInfo
  global : AccountInfo
  fee : AccountInfo
  mint : AccountInfo
  bondingCurve : AccountInfo
  userToken : AccountInfo
  eventAuthority : AccountInfo
  ata : AccountInfo
  deriving DecidableEq, Repr

/-! Constants of the source (`Pubkey::from_str(...)`, `TokenAccount::LEN`). -/

def pumpProgramId : Pubkey := 1

def feeRecipient : Pubkey := 2

def splTokenProgramId : Pubkey := 3

def tokenAccountLen : Nat := 165

/-- Model of the opaque deterministic address derivation: an injective
encoding into a region disjoint from small concrete keys. -/
def derivedAddr (tag : Nat) (program : Pubkey) (extra : Pubkey) : Pubkey :=
  1000000 + Nat.pair tag (Nat.pair program extra)

/-- Model of `find_program_address([b"global"], pump_program_id)`. -/
def globalPDA : Pubkey := derivedAddr 0 pumpProgramId 0

/-- Model of `find_program_address([b"bonding-curve", mint], pump_program_id)`. -/
def bondingCurvePDA (mint : Pubkey) : Pubkey := derivedAddr 1 pumpProgramId mint

/-- Model of `find_program_address([b"__event_authority"], pump_program_id)`. -/
def eventAuthorityPDA : Pubkey := derivedAddr 2 pumpProgramId 0

/-- Model of `get_associated_token_address(owner, mint)`. -/
def get_associated_token_address (owner mint : Pubkey) : Pubkey :=
  derivedAddr 3 owner mint

/-! Instruction data encoding. -/

/-- Model of `u64::to_le_bytes`: eight little-endian bytes. -/
def le64 (n : Nat) : List Nat :=
  [n % 256, n / 2 ^ 8 % 256, n / 2 ^ 16 % 256, n / 2 ^ 24 % 256,
   n / 2 ^ 32 % 256, n / 2 ^ 40 % 256, n / 2 ^ 48 % 256, n / 2 ^ 56 % 256]

/-- Little-endian byte-list decoding (the inverse reading of the layout). -/
def decodeLE (bs : List Nat) : Nat :=
  bs.foldr (fun b acc => b + 256 * acc) 0

/-- The 8-byte Pump.fun buy discriminator. -/
def buyDisc : List Nat := [0x66, 0x06, 0x3d, 0x12, 0x01, 0xda, 0xeb, 0xea]

/-- The 8-byte Pump.fun sell discriminator. -/
def sellDisc : List Nat := [0x33, 0xe6, 0x85, 0xa4, 0x01, 0x7f, 0x83, 0xad]

/-- Buy payload: discriminator, then `tokens_to_buy` and `max_sol_cost`
little-endian. -/
def buyData (arb : ArbitrageParams) : List Nat :=
  buyDisc ++ le64 arb.tokens_to_buy ++ le64 arb.max_sol_cost

/-- Sell payload: discriminator, then `tokens_to_sell` and `min_wsol_out`
little-endian. -/
def sellData (arb : ArbitrageParams) : List Nat :=
  sellDisc ++ le64 arb.tokens_to_sell ++ le64 arb.min_wsol_out

/-! Venue account resolver (the inline scan loop of the buy branch). -/

/-- Key-equality match against a derived or constant address. -/
def isKeyP (c : Pubkey) (a : AccountInfo) : Bool :=
  a.key == c

/-- Structural match for the user's token account: owned by the SPL token
program, token-account length, deserializes with `owner == user` and
`mint == token_mint`. -/
def isUserTokenP (env : ExecEnv) (mint : Pubkey) (a : AccountInfo) : Bool :=
  a.owner == splTokenProgramId && a.dataLen == tokenAccountLen &&
    (match a.tokenData with
     | some td => td.owner == env.user.key && td.mint == mint
     | none => false)

/-- One pass of the scan loop for a single slot: each matching element
overwrites the previously remembered one (`slot = Some(acc_info)` inside the
`for` loop, with no break), so the last match wins. -/
def scanSlot (p : AccountInfo → Bool) (slice : List AccountInfo) : Option AccountInfo :=
  slice.foldl (fun st a => if p a then some a else st) none

/-- The resolver for a Pump.fun leg: scan the sub-range for the seven
required slots, check them in source order with the source's error codes,
then find the associated bonding-curve token account (first match, the
`break` loop) keyed by the found bonding-curve account, and check it. -/
def resolvePump (env : ExecEnv) (mint : Pubkey) (slice : List AccountInfo) :
    Except MyErrorCode ResolvedPumpAccounts :=
  match scanSlot (isKeyP pumpProgramId) slice with
  | none => .error .AccountNotFound
  | some pumpProg =>
  match scanSlot (isKeyP globalPDA) slice with
  | none => .error .PDAAccountNotFound
  | some glob =>
  match scanSlot (isKeyP feeRecipient) slice with
  | none => .error .AccountNotFound
  | some fee =>
  match scanSlot (isKeyP mint) slice with
  | none => .error .MintAccountNotFound
  | some mintAcc =>
  match scanSlot (isKeyP (bondingCurvePDA mint)) slice with
  | none => .error .PDAAccountNotFound
  | some bond =>
  match scanSlot (isUserTokenP env mint) slice with
  | none => .error .TokenAccountNotFound
  | some userTok =>
  match scanSlot (isKeyP eventAuthorityPDA) slice with
  | none => .error .PDAAccountNotFound
  | some evAuth =>
  match slice.find? (isKeyP (get_associated_token_address bond.key mint)) with
  | none => .error .AccountNotFound
  | some ata =>
  .ok ⟨pumpProg, glob, fee, mintAcc, bond, userTok, evAuth, ata⟩

/-! Instruction construction. -/

/-- The Pump.fun buy instruction: fixed 12-entry account list
(`new_readonly(_, false)` is read-only non-signer, `new(_, false)` writable
non-signer, `new(user, true)` writable signer) and the buy payload. -/
def mkBuyInstr (env : ExecEnv) (arb : ArbitrageParams) (r : ResolvedPumpAccounts) :
    Instruction where
  programId := pumpProgramId
  accounts :=
    [⟨r.global.key, false, false⟩,
     ⟨r.fee.key, false, true⟩,
     ⟨r.mint.key, false, false⟩,
     ⟨r.bondingCurve.key, false, true⟩,
     ⟨r.ata.key, false, true⟩,
     ⟨r.userToken.key, false, true⟩,
     ⟨env.user.key, true, true⟩,
     ⟨env.system_program.key, false, false⟩,
     ⟨env.token_program.key, false, false⟩,
     ⟨env.rent.key, false, false⟩,
     ⟨r.eventAuthority.key, false, false⟩,
     ⟨r.pumpProgram.key, false, false⟩]
  data := buyData arb

/-- The Pump.fun sell instruction reuses the buy instruction's account list
(`buy_instruction.accounts.clone()`) and the same target program. -/
def mkSellInstr (arb : ArbitrageParams) (bi : Instruction) : Instruction where
  programId := pumpProgramId
  accounts := bi.accounts
  data := sellData arb

/-- The filter of the `buy_accounts` loop: keep a pool entry if its key
matches any derived or constant address of the venue, or if it merely looks
like a token account (owner and length; the deserialized fields are not
re-checked there). -/
def buyKeepP (arb : ArbitrageParams) (a : AccountInfo) : Bool :=
  a.key == globalPDA || a.key == feeRecipient || a.key == arb.token_mint ||
  a.key == bondingCurvePDA arb.token_mint ||
  a.key == get_associated_token_address (bondingCurvePDA arb.token_mint) arb.token_mint ||
  a.key == eventAuthorityPDA || a.key == pumpProgramId ||
  (a.owner == splTokenProgramId && a.dataLen == tokenAccountLen)

/-- The `AccountInfo` list for a Pump.fun invocation: the matching slice
entries in order, then user, system program, token program and rent. -/
def pumpInfos (env : ExecEnv) (arb : ArbitrageParams) (slice : List AccountInfo) :
    List AccountInfo :=
  slice.filter (buyKeepP arb) ++
    [env.user, env.system_program, env.token_program, env.rent]

/-- Build the buy instruction for a leg (`match arbitrage.buy_dex`). -/
def buildBuyInstr (env : ExecEnv) (arb : ArbitrageParams) (slice : List AccountInfo) :
    Except MyErrorCode Instruction :=
  match arb.buy_dex with
  | .PumpFun =>
    match resolvePump env arb.token_mint slice with
    | .error e => .error e
    | .ok r => .ok (mkBuyInstr env arb r)
  | .Meteora => .error .InvalidDexType

/-- The `buy_accounts` match: Pump.fun gathers `pumpInfos`, Meteora an
empty list. -/
def buildBuyInfos (env : ExecEnv) (arb : ArbitrageParams) (slice : List AccountInfo) :
    List AccountInfo :=
  match arb.buy_dex with
  | .PumpFun => pumpInfos env arb slice
  | .Meteora => []

/-- Build the sell instruction for a leg (`match arbitrage.sell_dex`). -/
def buildSellInstr (arb : ArbitrageParams) (bi : Instruction) :
    Except MyErrorCode Instruction :=
  match arb.sell_dex with
  | .PumpFun => .ok (mkSellInstr arb bi)
  | .Meteora => .error .InvalidDexType

/-- One leg of the loop body, up to and including building both calls:
buy instruction, then the invoke account list, then the sell instruction
(which reuses the buy account list); the two `invoke`s happen after both
instructions are built, so a failing leg issues none of its own calls. -/
def execLeg (env : ExecEnv) (arb : ArbitrageParams) (slice : List AccountInfo) :
    Except MyErrorCode (Call × Call) :=
  match buildBuyInstr env arb slice with
  | .error e => .error e
  | .ok bi =>
    match buildSellInstr arb bi with
    | .error e => .error e
    | .ok si => .ok (⟨bi, buildBuyInfos env arb slice⟩, ⟨si, buildBuyInfos env arb slice⟩)

/-- The batch loop: for each leg compute `start = offset`,
`end = start + accounts_count`, require `pool.length ≥ end`, slice
`[start, end)`, run the leg, issue buy then sell, advance the offset. -/
def execLoop (env : ExecEnv) :
    List ArbitrageParams → List AccountInfo → Nat → List Call → BatchResult
  | [], _, _, acc => .ok acc
  | arb :: rest, pool, offset, acc =>
    if offset + arb.accounts_count ≤ pool.length then
      match execLeg env arb ((pool.drop offset).take arb.accounts_count) with
      | .ok (b, s) => execLoop env rest pool (offset + arb.accounts_count) (acc ++ [b, s])
      | .error e => .err e acc
    else .err .InsufficientAccounts acc

/-- `execute_arbitrage_batch`: the pause gate, then the leg loop from
offset 0.  The Rust signature fixes four legs (`[ArbitrageParams; 4]`);
the loop itself is uniform in the list, and the four-leg claims
instantiate four-element lists. -/
def execute_arbitrage_batch (st : RouterState) (env : ExecEnv)
    (arbs : List ArbitrageParams) (pool : List AccountInfo) : BatchResult :=
  if st.is_paused then .err .ContractIsPaused []
  else execLoop env arbs pool 0 []

/-- Ghost-instrumented loop: identical control flow to `execLoop`, but also
returns the list of `(start, end)` bounds of every slice actually taken,
in order.  `execLoopB_snd` proves the second component agrees with
`execLoop`. -/
def execLoopB (env : ExecEnv) :
    List ArbitrageParams → List AccountInfo → Nat → List Call →
      List (Nat × Nat) × BatchResult
  | [], _, _, acc => ([], .ok acc)
  | arb :: rest, pool, offset, acc =>
    if offset + arb.accounts_count ≤ pool.length then
      match execLeg env arb ((pool.drop offset).take arb.accounts_count) with
      | .ok (b, s) =>
        ((offset, offset + arb.accounts_count) ::
            (execLoopB env rest pool (offset + arb.accounts_count) (acc ++ [b, s])).1,
         (execLoopB env rest pool (offset + arb.accounts_count) (acc ++ [b, s])).2)
      | .error e => ([(offset, offset + arb.accounts_count)], .err e acc)
    else ([], .err .InsufficientAccounts acc)

/-- Instrumented batch entry point. -/
def execute_arbitrage_batchB (st : RouterState) (env : ExecEnv)
    (arbs : List ArbitrageParams) (pool : List AccountInfo) :
    List (Nat × Nat) × BatchResult :=
  if st.is_paused then ([], .err .ContractIsPaused [])
  else execLoopB env arbs pool 0 []

/-- The prescribed partition bounds for a list of per-leg counts starting
at a given offset: leg k covers `[offset + sum of earlier counts, ... + c_k)`. -/
def legBounds : List Nat → Nat → List (Nat × Nat)
  | [], _ => []
  | c :: rest, offset => (offset, offset + c) :: legBounds rest (offset + c)

/-- `toggle_pause`: requires the signer to equal the stored owner, then
negates `is_paused`.  Returns the post-state together with the outcome;
on failure the `require!` returns before any mutation, so the post-state
is the pre-state. -/
def toggle_pause (st : RouterState) (signer : Pubkey) :
    RouterState × Except MyErrorCode Unit :=
  if signer = st.owner then
    ({ st with is_paused := !st.is_paused }, .ok ())
  else (st, .error .UnauthorizedAccess)

deriving instance DecidableEq for Except

/-! Analysis vocabulary used by the permutation and error-code claims. -/

/-- At most one element of the list (up to equality of the whole record)
satisfies the slot predicate. -/
abbrev SlotUnique (p : AccountInfo → Bool) (l : List AccountInfo) : Prop :=
  ∀ a ∈ l, ∀ b ∈ l, p a = true → p b = true → a = b

/-- The scan result of each of the eight required slots, indexed in the
order the source checks them.  Slot 7 is the associated bonding-curve
token account; its key in the source is derived from the found
bonding-curve account, whose key equals `bondingCurvePDA mint` whenever
slot 4 is present. -/
def slotScan (env : ExecEnv) (mint : Pubkey) (slice : List AccountInfo) :
    Fin 8 → Option AccountInfo
  | 0 => scanSlot (isKeyP pumpProgramId) slice
  | 1 => scanSlot (isKeyP globalPDA) slice
  | 2 => scanSlot (isKeyP feeRecipient) slice
  | 3 => scanSlot (isKeyP mint) slice
  | 4 => scanSlot (isKeyP (bondingCurvePDA mint)) slice
  | 5 => scanSlot (isUserTokenP env mint) slice
  | 6 => scanSlot (isKeyP eventAuthorityPDA) slice
  | 7 => slice.find? (isKeyP (get_associated_token_address (bondingCurvePDA mint) mint))

/-- The error code the source attaches to each required slot. -/
def slotError : Fin 8 → MyErrorCode
  | 0 => .AccountNotFound
  | 1 => .PDAAccountNotFound
  | 2 => .AccountNotFound
  | 3 => .MintAccountNotFound
  | 4 => .PDAAccountNotFound
  | 5 => .TokenAccountNotFound
  | 6 => .PDAAccountNotFound
  | 7 => .AccountNotFound

/-! Concrete fixtures used by witnesses and counterexamples: a mint, the
context accounts, a fully-populated Pump.fun sub-range, and legs. -/

def mintW : Pubkey := 10

def userInfoW : AccountInfo := ⟨100, 0, 0, none⟩

def sysInfoW : AccountInfo := ⟨101, 0, 0, none⟩

def tokInfoW : AccountInfo := ⟨splTokenProgramId, 0, 0, none⟩

def rentInfoW : AccountInfo := ⟨103, 0, 0, none⟩

def envW : ExecEnv := ⟨userInfoW, sysInfoW, tokInfoW, rentInfoW⟩

def accPump : AccountInfo := ⟨pumpProgramId, 0, 0, none⟩

def accGlobal : AccountInfo := ⟨globalPDA, 0, 0, none⟩

def accFee : AccountInfo := ⟨feeRecipient, 0, 0, none⟩

def accMint : AccountInfo := ⟨mintW, 0, 0, none⟩

def accBond : AccountInfo := ⟨bondingCurvePDA mintW, 0, 0, none⟩

def accUserTok : AccountInfo := ⟨50, splTokenProgramId, tokenAccountLen, some ⟨100, mintW⟩⟩

def accEvent : AccountInfo := ⟨eventAuthorityPDA, 0, 0, none⟩

def accAta : AccountInfo :=
  ⟨get_associated_token_address (bondingCurvePDA mintW) mintW, 0, 0, none⟩

/-- A sub-range containing exactly the eight required accounts. -/
def sliceW : List AccountInfo :=
  [accPump, accGlobal, accFee, accMint, accBond, accUserTok, accEvent, accAta]

/-- A leg trading `mintW` on Pump.fun both ways, consuming 8 accounts. -/
def legW : ArbitrageParams := ⟨mintW, 5, 1, .PumpFun, .PumpFun, 8, 7, 9, 6⟩

def stW : RouterState := ⟨77, false, 0⟩

def stPausedW : RouterState := ⟨77, true, 0⟩

/-- The resolution result on `sliceW`. -/
def rW : ResolvedPumpAccounts :=
  ⟨accPump, accGlobal, accFee, accMint, accBond, accUserTok, accEvent, accAta⟩

/-- A pool populating four identical legs. -/
def poolW : List AccountInfo := sliceW ++ sliceW ++ sliceW ++ sliceW

/-- A second token account of the same user and mint under a different
address (for example an auxiliary account next to the associated one). -/
def accUserTok2 : AccountInfo := ⟨51, splTokenProgramId, tokenAccountLen, some ⟨100, mintW⟩⟩

/-- `sliceW` with the duplicate token account appended. -/
def sliceP1 : List AccountInfo := sliceW ++ [accUserTok2]

/-- The same multiset of accounts with the duplicate moved to the front. -/
def sliceP2 : List AccountInfo := accUserTok2 :: sliceW

/-- `sliceW` missing exactly the global-config PDA (slot 1). -/
def sliceNoGlobal : List AccountInfo :=
  [accPump, accFee, accMint, accBond, accUserTok, accEvent, accAta]

/-- `sliceW` missing exactly the bonding-curve PDA (slot 4). -/
def sliceNoBond : List AccountInfo :=
  [accPump, accGlobal, accFee, accMint, accUserTok, accEvent, accAta]

def legC0 : ArbitrageParams := { legW with accounts_count := 0 }

def legC5 : ArbitrageParams := { legW with accounts_count := 5 }

def legA1 : ArbitrageParams := { legW with accounts_count := 1 }

/-- A leg naming the unimplemented venue on the buy side. -/
def legMet : ArbitrageParams := { legW with buy_dex := .Meteora, accounts_count := 0 }

/-- A leg with boundary numeric parameters (maximum u64, 0, 1). -/
def legBoundary : ArbitrageParams :=
  { legW with tokens_to_buy := 18446744073709551615, max_sol_cost := 0,
              tokens_to_sell := 1, min_wsol_out := 18446744073709551615 }

/-! Helper lemmas about the scan loop. -/

theorem scanSlot_eq_find_rev (p : AccountInfo → Bool) (l : List AccountInfo) :
    scanSlot p l = l.reverse.find? p := by
  induction l using List.reverseRecOn with
  | nil => rfl
  | append_singleton l x ih =>
    simp only [scanSlot, List.foldl_append, List.foldl_cons, List.foldl_nil,
      List.reverse_append, List.reverse_cons, List.reverse_nil, List.nil_append,
      List.singleton_append, List.find?_cons]
    cases h : p x with
    | true => simp [h]
    | false => simpa [h] using ih

theorem scanSlot_eq_none_iff (p : AccountInfo → Bool) (l : List AccountInfo) :
    scanSlot p l = none ↔ ∀ a ∈ l, ¬ p a := by
  rw [scanSlot_eq_find_rev, List.find?_eq_none]
  simp [List.mem_reverse]

theorem scanSlot_some_mem {p : AccountInfo → Bool} {l : List AccountInfo} {a : AccountInfo}
    (h : scanSlot p l = some a) : a ∈ l ∧ p a = true := by
  rw [scanSlot_eq_find_rev] at h
  exact ⟨List.mem_reverse.mp (List.mem_of_find?_eq_some h), List.find?_some h⟩

theorem scanSlot_perm {p : AccountInfo → Bool} {l1 l2 : List AccountInfo}
    (hperm : l1.Perm l2) (hu : SlotUnique p l1) :
    scanSlot p l1 = scanSlot p l2 := by
  cases h1 : scanSlot p l1 with
  | none =>
    cases h2 : scanSlot p l2 with
    | none => rfl
    | some b =>
      obtain ⟨hb, hpb⟩ := scanSlot_some_mem h2
      exact absurd hpb ((scanSlot_eq_none_iff p l1).mp h1 b (hperm.mem_iff.mpr hb))
  | some a =>
    obtain ⟨ha, hpa⟩ := scanSlot_some_mem h1
    cases h2 : scanSlot p l2 with
    | none =>
      exact absurd hpa ((scanSlot_eq_none_iff p l2).mp h2 a (hperm.mem_iff.mp ha))
    | some b =>
      obtain ⟨hb, hpb⟩ := scanSlot_some_mem h2
      exact congrArg some (hu a ha b (hperm.mem_iff.mpr hb) hpa hpb)

theorem find?_perm_of_unique {p : AccountInfo → Bool} {l1 l2 : List AccountInfo}
    (hperm : l1.Perm l2) (hu : SlotUnique p l1) :
    l1.find? p = l2.find? p := by
  cases h1 : l1.find? p with
  | none =>
    cases h2 : l2.find? p with
    | none => rfl
    | some b =>
      have hb := List.mem_of_find?_eq_some h2
      have hpb := List.find?_some h2
      exact absurd hpb (List.find?_eq_none.mp h1 b (hperm.mem_iff.mpr hb))
  | some a =>
    have ha := List.mem_of_find?_eq_some h1
    have hpa := List.find?_some h1
    cases h2 : l2.find? p with
    | none =>
      exact absurd hpa (List.find?_eq_none.mp h2 a (hperm.mem_iff.mp ha))
    | some b =>
      have hb := List.mem_of_find?_eq_some h2
      have hpb := List.find?_some h2
      exact congrArg some (hu a ha b (hperm.mem_iff.mpr hb) hpa hpb)

/-! Helper lemmas about the batch loop. -/

theorem execLoopB_snd (env : ExecEnv) :
    ∀ (arbs : List ArbitrageParams) (pool : List AccountInfo) (offset : Nat) (acc : List Call),
      (execLoopB env arbs pool offset acc).2 = execLoop env arbs pool offset acc
  | [], _, _, _ => rfl
  | arb :: rest, pool, offset, acc => by
    simp only [execLoopB, execLoop]
    split
    · cases h : execLeg env arb ((pool.drop offset).take arb.accounts_count) with
      | ok p =>
        cases p with
        | mk b s =>
          simp [h, execLoopB_snd env rest pool (offset + arb.accounts_count) (acc ++ [b, s])]
      | error e => simp [h]
    · rfl

theorem execLoop_cons_ok (env : ExecEnv) (arb : ArbitrageParams)
    (rest : List ArbitrageParams) (pool : List AccountInfo) (offset : Nat)
    (acc : List Call) (r : ResolvedPumpAccounts)
    (hle : offset + arb.accounts_count ≤ pool.length)
    (hb : arb.buy_dex = DexType.PumpFun) (hs : arb.sell_dex = DexType.PumpFun)
    (hr : resolvePump env arb.token_mint ((pool.drop offset).take arb.accounts_count) = .ok r) :
    execLoop env (arb :: rest) pool offset acc =
      execLoop env rest pool (offset + arb.accounts_count)
        (acc ++
          [⟨mkBuyInstr env arb r, pumpInfos env arb ((pool.drop offset).take arb.accounts_count)⟩,
           ⟨mkSellInstr arb (mkBuyInstr env arb r),
            pumpInfos env arb ((pool.drop offset).take arb.accounts_count)⟩]) := by
  simp only [execLoop, if_pos hle, execLeg, buildBuyInstr, hb, hr, buildSellInstr, hs,
    buildBuyInfos]

theorem execLoop_ok_le (env : ExecEnv) :
    ∀ (arbs : List ArbitrageParams) (pool : List AccountInfo) (offset : Nat)
      (acc calls : List Call),
      execLoop env arbs pool offset acc = .ok calls → offset ≤ pool.length →
        offset + (arbs.map ArbitrageParams.accounts_count).sum ≤ pool.length
  | [], pool, offset, acc, calls => by
    intro _ h
    simpa using h
  | arb :: rest, pool, offset, acc, calls => by
    intro hok hoff
    simp only [execLoop] at hok
    split at hok
    · rename_i hle
      split at hok
      · rename_i p b s hleg
        have := execLoop_ok_le env rest pool (offset + arb.accounts_count) _ calls hok hle
        simp only [List.map_cons, List.sum_cons]
        omega
      · exact absurd hok (by simp)
    · exact absurd hok (by simp)

theorem execLoopB_bounds (env : ExecEnv) :
    ∀ (arbs : List ArbitrageParams) (pool : List AccountInfo) (offset : Nat) (acc : List Call),
      ∃ m, (execLoopB env arbs pool offset acc).1 =
        (legBounds (arbs.map ArbitrageParams.accounts_count) offset).take m
  | [], _, _, _ => ⟨0, rfl⟩
  | arb :: rest, pool, offset, acc => by
    simp only [execLoopB, List.map_cons, legBounds]
    split
    · cases h : execLeg env arb ((pool.drop offset).take arb.accounts_count) with
      | ok p =>
        cases p with
        | mk b s =>
          obtain ⟨m, hm⟩ :=
            execLoopB_bounds env rest pool (offset + arb.accounts_count) (acc ++ [b, s])
          exact ⟨m + 1, by simp [h, hm]⟩
      | error e => exact ⟨1, by simp [h]⟩
    · exact ⟨0, rfl⟩

theorem execLoopB_bounds_inv (env : ExecEnv) :
    ∀ (arbs : List ArbitrageParams) (pool : List AccountInfo) (offset : Nat) (acc : List Call)
      (se : Nat × Nat), se ∈ (execLoopB env arbs pool offset acc).1 →
        se.1 ≤ se.2 ∧ se.2 ≤ pool.length
  | [], _, _, _, se => by simp [execLoopB]
  | arb :: rest, pool, offset, acc, se => by
    intro hmem
    simp only [execLoopB] at hmem
    split at hmem
    · rename_i hle
      split at hmem
      · rename_i p b s hleg
        simp only [List.mem_cons] at hmem
        rcases hmem with h | h
        · subst h; omega
        · exact
            execLoopB_bounds_inv env rest pool (offset + arb.accounts_count) (acc ++ [b, s]) se h
      · simp only [List.mem_singleton] at hmem
        subst hmem; omega
    · simp at hmem

/-! Claim C1: the pause gate. -/

/-- C1: when `is_paused` is true, `execute_arbitrage_batch` fails with
`ContractIsPaused`, issues zero external calls, and takes no slice of the
pool (no leg is partitioned, resolved, encoded, or invoked). -/
theorem C1_pause_gate (st : RouterState) (env : ExecEnv)
    (arbs : List ArbitrageParams) (pool : List AccountInfo)
    (h : st.is_paused = true) :
    execute_arbitrage_batch st env arbs pool = .err .ContractIsPaused [] ∧
    (execute_arbitrage_batchB st env arbs pool).1 = [] := by
  simp [execute_arbitrage_batch, execute_arbitrage_batchB, h]

/-- Witness for C1 at a concrete paused state and batch. -/
theorem C1_pause_gate_witness :
    execute_arbitrage_batch stPausedW envW [legW, legW, legW, legW] poolW =
        .err .ContractIsPaused [] ∧
    (execute_arbitrage_batchB stPausedW envW [legW, legW, legW, legW] poolW).1 = [] :=
  C1_pause_gate stPausedW envW [legW, legW, legW, legW] poolW rfl

/-! Claim C2: partitioning.  The sub-range formula holds, but the claimed
failure mode for an over-long batch does not: the length check is per leg,
so a batch whose total count exceeds the pool can fail earlier with a
different error (or after earlier legs' calls were already issued). -/

/-- C2 counterexample: a four-leg batch whose declared counts sum to 5 over
an empty pool (so `sum > L`) fails with `AccountNotFound` — leg 0's
resolution error on its empty sub-range — not with `InsufficientAccounts`
as the claim states. -/
theorem C2_counterexample :
    ((([legC0, legC5, legC0, legC0] : List ArbitrageParams).map
        ArbitrageParams.accounts_count).sum = 5) ∧
    ([] : List AccountInfo).length = 0 ∧
    execute_arbitrage_batch stW envW [legC0, legC5, legC0, legC0] [] =
      .err .AccountNotFound [] := by
  decide

/-- C2 (amended): leg k's sub-range is exactly
`[sum(c0..c_{k-1}), sum(c0..c_k))` for every leg actually processed — the
bounds actually sliced are a truncation of `legBounds` — so the partition
is contiguous, non-overlapping and order-preserving; if `sum(c0..c3) > L`
the batch can never succeed; and if already `c0 > L` it fails with
`InsufficientAccounts` before any external call is issued.  (The original
claim's stronger guarantee — that any over-long batch fails with
`InsufficientAccounts` with zero calls — is refuted by
`C2_counterexample`.) -/
theorem C2_partition (st : RouterState) (env : ExecEnv) (a0 a1 a2 a3 : ArbitrageParams)
    (pool : List AccountInfo) (hp : st.is_paused = false) :
    legBounds [a0.accounts_count, a1.accounts_count, a2.accounts_count, a3.accounts_count] 0 =
      [(0, a0.accounts_count),
       (a0.accounts_count, a0.accounts_count + a1.accounts_count),
       (a0.accounts_count + a1.accounts_count,
        a0.accounts_count + a1.accounts_count + a2.accounts_count),
       (a0.accounts_count + a1.accounts_count + a2.accounts_count,
        a0.accounts_count + a1.accounts_count + a2.accounts_count + a3.accounts_count)] ∧
    (∃ m, (execute_arbitrage_batchB st env [a0, a1, a2, a3] pool).1 =
      (legBounds [a0.accounts_count, a1.accounts_count, a2.accounts_count, a3.accounts_count]
        0).take m) ∧
    (pool.length <
        a0.accounts_count + a1.accounts_count + a2.accounts_count + a3.accounts_count →
      ∀ calls, execute_arbitrage_batch st env [a0, a1, a2, a3] pool ≠ .ok calls) ∧
    (pool.length < a0.accounts_count →
      execute_arbitrage_batch st env [a0, a1, a2, a3] pool = .err .InsufficientAccounts []) := by
  refine ⟨by simp [legBounds, Nat.add_assoc], ?_, ?_, ?_⟩
  · simp only [execute_arbitrage_batchB, hp, Bool.false_eq_true, if_false]
    have h := execLoopB_bounds env [a0, a1, a2, a3] pool 0 []
    simpa using h
  · intro hlen calls hok
    simp only [execute_arbitrage_batch, hp, Bool.false_eq_true, if_false] at hok
    have := execLoop_ok_le env [a0, a1, a2, a3] pool 0 [] calls hok (Nat.zero_le _)
    simp only [List.map_cons, List.map_nil, List.sum_cons, List.sum_nil] at this
    omega
  · intro hlen
    simp only [execute_arbitrage_batch, hp, Bool.false_eq_true, if_false, execLoop]
    rw [if_neg (by omega)]

/-- Witness for C2 (amended) at a concrete unpaused state, counts
`[1, 0, 0, 0]` and an empty pool, where both implications fire. -/
theorem C2_partition_witness :
    legBounds [legA1.accounts_count, legC0.accounts_count, legC0.accounts_count,
        legC0.accounts_count] 0 =
      [(0, legA1.accounts_count),
       (legA1.accounts_count, legA1.accounts_count + legC0.accounts_count),
       (legA1.accounts_count + legC0.accounts_count,
        legA1.accounts_count + legC0.accounts_count + legC0.accounts_count),
       (legA1.accounts_count + legC0.accounts_count + legC0.accounts_count,
        legA1.accounts_count + legC0.accounts_count + legC0.accounts_count +
          legC0.accounts_count)] ∧
    (∃ m, (execute_arbitrage_batchB stW envW [legA1, legC0, legC0, legC0] []).1 =
      (legBounds [legA1.accounts_count, legC0.accounts_count, legC0.accounts_count,
        legC0.accounts_count] 0).take m) ∧
    (([] : List AccountInfo).length <
        legA1.accounts_count + legC0.accounts_count + legC0.accounts_count +
          legC0.accounts_count →
      ∀ calls, execute_arbitrage_batch stW envW [legA1, legC0, legC0, legC0] [] ≠ .ok calls) ∧
    (([] : List AccountInfo).length < legA1.accounts_count →
      execute_arbitrage_batch stW envW [legA1, legC0, legC0, legC0] [] =
        .err .InsufficientAccounts []) :=
  C2_partition stW envW legA1 legC0 legC0 legC0 [] rfl

/-! Claim C3: eight calls in order on the happy path. -/

/-- C3: for a four-leg batch with every venue Pump.fun, an unpaused state,
a sufficient pool, and successful resolution of every leg's sub-range,
`execute_arbitrage_batch` succeeds with exactly these eight calls: legs in
submission order, buy before sell within each leg (invocation success is
built into the model's `invoke`). -/
theorem C3_eight_calls (st : RouterState) (env : ExecEnv) (a0 a1 a2 a3 : ArbitrageParams)
    (pool : List AccountInfo) (r0 r1 r2 r3 : ResolvedPumpAccounts)
    (hp : st.is_paused = false)
    (hb0 : a0.buy_dex = DexType.PumpFun) (hs0 : a0.sell_dex = DexType.PumpFun)
    (hb1 : a1.buy_dex = DexType.PumpFun) (hs1 : a1.sell_dex = DexType.PumpFun)
    (hb2 : a2.buy_dex = DexType.PumpFun) (hs2 : a2.sell_dex = DexType.PumpFun)
    (hb3 : a3.buy_dex = DexType.PumpFun) (hs3 : a3.sell_dex = DexType.PumpFun)
    (hlen : a0.accounts_count + a1.accounts_count + a2.accounts_count + a3.accounts_count ≤
      pool.length)
    (h0 : resolvePump env a0.token_mint ((pool.drop 0).take a0.accounts_count) = .ok r0)
    (h1 : resolvePump env a1.token_mint
      ((pool.drop a0.accounts_count).take a1.accounts_count) = .ok r1)
    (h2 : resolvePump env a2.token_mint
      ((pool.drop (a0.accounts_count + a1.accounts_count)).take a2.accounts_count) = .ok r2)
    (h3 : resolvePump env a3.token_mint
      ((pool.drop (a0.accounts_count + a1.accounts_count + a2.accounts_count)).take
        a3.accounts_count) = .ok r3) :
    execute_arbitrage_batch st env [a0, a1, a2, a3] pool =
      .ok [⟨mkBuyInstr env a0 r0, pumpInfos env a0 ((pool.drop 0).take a0.accounts_count)⟩,
           ⟨mkSellInstr a0 (mkBuyInstr env a0 r0),
            pumpInfos env a0 ((pool.drop 0).take a0.accounts_count)⟩,
           ⟨mkBuyInstr env a1 r1,
            pumpInfos env a1 ((pool.drop a0.accounts_count).take a1.accounts_count)⟩,
           ⟨mkSellInstr a1 (mkBuyInstr env a1 r1),
            pumpInfos env a1 ((pool.drop a0.accounts_count).take a1.accounts_count)⟩,
           ⟨mkBuyInstr env a2 r2,
            pumpInfos env a2
              ((pool.drop (a0.accounts_count + a1.accounts_count)).take a2.accounts_count)⟩,
           ⟨mkSellInstr a2 (mkBuyInstr env a2 r2),
            pumpInfos env a2
              ((pool.drop (a0.accounts_count + a1.accounts_count)).take a2.accounts_count)⟩,
           ⟨mkBuyInstr env a3 r3,
            pumpInfos env a3
              ((pool.drop (a0.accounts_count + a1.accounts_count + a2.accounts_count)).take
                a3.accounts_count)⟩,
           ⟨mkSellInstr a3 (mkBuyInstr env a3 r3),
            pumpInfos env a3
              ((pool.drop (a0.accounts_count + a1.accounts_count + a2.accounts_count)).take
                a3.accounts_count)⟩] := by
  simp only [execute_arbitrage_batch, hp, Bool.false_eq_true, if_false]
  rw [execLoop_cons_ok env a0 [a1, a2, a3] pool 0 [] r0 (by omega) hb0 hs0 h0]
  simp only [Nat.zero_add, List.nil_append]
  rw [execLoop_cons_ok env a1 [a2, a3] pool a0.accounts_count _ r1 (by omega) hb1 hs1 h1]
  rw [execLoop_cons_ok env a2 [a3] pool (a0.accounts_count + a1.accounts_count) _ r2
    (by omega) hb2 hs2 h2]
  rw [execLoop_cons_ok env a3 [] pool
    (a0.accounts_count + a1.accounts_count + a2.accounts_count) _ r3 (by omega) hb3 hs3 h3]
  simp [execLoop]

/-- Witness for C3: four identical Pump.fun legs over a pool of four copies
of the fully-populated sub-range yield exactly eight calls. -/
theorem C3_eight_calls_witness :
    execute_arbitrage_batch stW envW [legW, legW, legW, legW] poolW =
      .ok [⟨mkBuyInstr envW legW rW,
            pumpInfos envW legW ((poolW.drop 0).take legW.accounts_count)⟩,
           ⟨mkSellInstr legW (mkBuyInstr envW legW rW),
            pumpInfos envW legW ((poolW.drop 0).take legW.accounts_count)⟩,
           ⟨mkBuyInstr envW legW rW,
            pumpInfos envW legW ((poolW.drop legW.accounts_count).take legW.accounts_count)⟩,
           ⟨mkSellInstr legW (mkBuyInstr envW legW rW),
            pumpInfos envW legW ((poolW.drop legW.accounts_count).take legW.accounts_count)⟩,
           ⟨mkBuyInstr envW legW rW,
            pumpInfos envW legW
              ((poolW.drop (legW.accounts_count + legW.accounts_count)).take
                legW.accounts_count)⟩,
           ⟨mkSellInstr legW (mkBuyInstr envW legW rW),
            pumpInfos envW legW
              ((poolW.drop (legW.accounts_count + legW.accounts_count)).take
                legW.accounts_count)⟩,
           ⟨mkBuyInstr envW legW rW,
            pumpInfos envW legW
              ((poolW.drop (legW.accounts_count + legW.accounts_count +
                legW.accounts_count)).take legW.accounts_count)⟩,
           ⟨mkSellInstr legW (mkBuyInstr envW legW rW),
            pumpInfos envW legW
              ((poolW.drop (legW.accounts_count + legW.accounts_count +
                legW.accounts_count)).take legW.accounts_count)⟩] :=
  C3_eight_calls stW envW legW legW legW legW poolW rW rW rW rW rfl rfl rfl rfl rfl rfl rfl
    rfl rfl (by decide) (by decide) (by decide) (by decide) (by decide)

/-! Claim C4: resolution under permutation.  The scan loop lets a later
match overwrite an earlier one, so two distinct accounts both matching the
structural token-account test make the result depend on order. -/

/-- C4 counterexample: two permutations of the same sub-range — a
fully-populated sub-range plus a second token account of the same user and
mint under a different address — resolve differently (the structural scan
binds the last matching token account). -/
theorem C4_counterexample :
    sliceP1.Perm sliceP2 ∧
    resolvePump envW mintW sliceP1 ≠ resolvePump envW mintW sliceP2 := by
  refine ⟨by decide, by decide⟩

/-- C4 (amended): resolution is permutation-invariant whenever each
required slot's predicate matches at most one account of the sub-range
(which the key-matched slots satisfy when no two distinct entries share a
derived address, and the structural token-account slot satisfies when the
user has only one token account of the leg's mint in the sub-range).
Without that uniqueness the last match wins and permutation can change the
result, as `C4_counterexample` shows. -/
theorem C4_resolution_perm (env : ExecEnv) (mint : Pubkey) (l1 l2 : List AccountInfo)
    (hperm : l1.Perm l2)
    (h1 : SlotUnique (isKeyP pumpProgramId) l1)
    (h2 : SlotUnique (isKeyP globalPDA) l1)
    (h3 : SlotUnique (isKeyP feeRecipient) l1)
    (h4 : SlotUnique (isKeyP mint) l1)
    (h5 : SlotUnique (isKeyP (bondingCurvePDA mint)) l1)
    (h6 : SlotUnique (isUserTokenP env mint) l1)
    (h7 : SlotUnique (isKeyP eventAuthorityPDA) l1)
    (h8 : SlotUnique (isKeyP (get_associated_token_address (bondingCurvePDA mint) mint)) l1) :
    resolvePump env mint l1 = resolvePump env mint l2 := by
  unfold resolvePump
  rw [scanSlot_perm hperm h1, scanSlot_perm hperm h2, scanSlot_perm hperm h3,
      scanSlot_perm hperm h4, scanSlot_perm hperm h5, scanSlot_perm hperm h6,
      scanSlot_perm hperm h7]
  cases scanSlot (isKeyP pumpProgramId) l2 with
  | none => rfl
  | some pumpProg =>
  cases scanSlot (isKeyP globalPDA) l2 with
  | none => rfl
  | some glob =>
  cases scanSlot (isKeyP feeRecipient) l2 with
  | none => rfl
  | some fee =>
  cases scanSlot (isKeyP mint) l2 with
  | none => rfl
  | some mintAcc =>
  cases hbond : scanSlot (isKeyP (bondingCurvePDA mint)) l2 with
  | none => rfl
  | some bond =>
  cases scanSlot (isUserTokenP env mint) l2 with
  | none => rfl
  | some userTok =>
  cases scanSlot (isKeyP eventAuthorityPDA) l2 with
  | none => rfl
  | some evAuth =>
  have hkey : bond.key = bondingCurvePDA mint := by
    have := (scanSlot_some_mem hbond).2
    simpa [isKeyP] using this
  simp only [hkey, find?_perm_of_unique hperm h8]

/-- Witness for C4 (amended): the fully-populated sub-range, whose slots
are all uniquely matched, resolves identically to its reversal. -/
theorem C4_resolution_perm_witness :
    resolvePump envW mintW sliceW = resolvePump envW mintW sliceW.reverse :=
  C4_resolution_perm envW mintW sliceW sliceW.reverse (by decide) (by decide) (by decide)
    (by decide) (by decide) (by decide) (by decide) (by decide) (by decide)

/-! Claim C5: per-slot error codes.  The slots do not have pairwise
distinct codes: three slots share `AccountNotFound` and three share
`PDAAccountNotFound`. -/

/-- C5 counterexample: two sub-ranges, one missing exactly the
global-config slot (index 1) and one missing exactly the bonding-curve
slot (index 4) — two distinct missing slots — both fail with the same
error code `PDAAccountNotFound`, so the codes do not uniquely identify the
missing slot. -/
theorem C5_counterexample :
    (∀ j : Fin 8, j ≠ 1 → (slotScan envW mintW sliceNoGlobal j).isSome = true) ∧
    slotScan envW mintW sliceNoGlobal 1 = none ∧
    (∀ j : Fin 8, j ≠ 4 → (slotScan envW mintW sliceNoBond j).isSome = true) ∧
    slotScan envW mintW sliceNoBond 4 = none ∧
    (1 : Fin 8) ≠ 4 ∧
    resolvePump envW mintW sliceNoGlobal = .error .PDAAccountNotFound ∧
    resolvePump envW mintW sliceNoBond = .error .PDAAccountNotFound := by
  decide

/-- C5 (amended): each required slot has a fixed typed not-found error
that identifies its category, not the slot uniquely: `AccountNotFound` for
the venue-program, fee and associated-token slots, `PDAAccountNotFound`
for the three derived-address slots, `MintAccountNotFound` for the mint,
`TokenAccountNotFound` for the trader's token account.  Whenever every
slot checked before slot `i` is present and slot `i` is missing,
resolution fails with exactly `slotError i`. -/
theorem C5_slot_errors (env : ExecEnv) (mint : Pubkey) (slice : List AccountInfo) (i : Fin 8)
    (hpre : ∀ j : Fin 8, j < i → (slotScan env mint slice j).isSome = true)
    (hmiss : slotScan env mint slice i = none) :
    resolvePump env mint slice = .error (slotError i) := by
  fin_cases i
  · simp only [slotScan] at hmiss
    simp [resolvePump, hmiss, slotError]
  · obtain ⟨a0, h0⟩ := Option.isSome_iff_exists.mp (hpre 0 (by decide))
    simp only [slotScan] at h0 hmiss
    simp [resolvePump, h0, hmiss, slotError]
  · obtain ⟨a0, h0⟩ := Option.isSome_iff_exists.mp (hpre 0 (by decide))
    obtain ⟨a1, h1⟩ := Option.isSome_iff_exists.mp (hpre 1 (by decide))
    simp only [slotScan] at h0 h1 hmiss
    simp [resolvePump, h0, h1, hmiss, slotError]
  · obtain ⟨a0, h0⟩ := Option.isSome_iff_exists.mp (hpre 0 (by decide))
    obtain ⟨a1, h1⟩ := Option.isSome_iff_exists.mp (hpre 1 (by decide))
    obtain ⟨a2, h2⟩ := Option.isSome_iff_exists.mp (hpre 2 (by decide))
    simp only [slotScan] at h0 h1 h2 hmiss
    simp [resolvePump, h0, h1, h2, hmiss, slotError]
  · obtain ⟨a0, h0⟩ := Option.isSome_iff_exists.mp (hpre 0 (by decide))
    obtain ⟨a1, h1⟩ := Option.isSome_iff_exists.mp (hpre 1 (by decide))
    obtain ⟨a2, h2⟩ := Option.isSome_iff_exists.mp (hpre 2 (by decide))
    obtain ⟨a3, h3⟩ := Option.isSome_iff_exists.mp (hpre 3 (by decide))
    simp only [slotScan] at h0 h1 h2 h3 hmiss
    simp [resolvePump, h0, h1, h2, h3, hmiss, slotError]
  · obtain ⟨a0, h0⟩ := Option.isSome_iff_exists.mp (hpre 0 (by decide))
    obtain ⟨a1, h1⟩ := Option.isSome_iff_exists.mp (hpre 1 (by decide))
    obtain ⟨a2, h2⟩ := Option.isSome_iff_exists.mp (hpre 2 (by decide))
    obtain ⟨a3, h3⟩ := Option.isSome_iff_exists.mp (hpre 3 (by decide))
    obtain ⟨a4, h4⟩ := Option.isSome_iff_exists.mp (hpre 4 (by decide))
    simp only [slotScan] at h0 h1 h2 h3 h4 hmiss
    simp [resolvePump, h0, h1, h2, h3, h4, hmiss, slotError]
  · obtain ⟨a0, h0⟩ := Option.isSome_iff_exists.mp (hpre 0 (by decide))
    obtain ⟨a1, h1⟩ := Option.isSome_iff_exists.mp (hpre 1 (by decide))
    obtain ⟨a2, h2⟩ := Option.isSome_iff_exists.mp (hpre 2 (by decide))
    obtain ⟨a3, h3⟩ := Option.isSome_iff_exists.mp (hpre 3 (by decide))
    obtain ⟨a4, h4⟩ := Option.isSome_iff_exists.mp (hpre 4 (by decide))
    obtain ⟨a5, h5⟩ := Option.isSome_iff_exists.mp (hpre 5 (by decide))
    simp only [slotScan] at h0 h1 h2 h3 h4 h5 hmiss
    simp [resolvePump, h0, h1, h2, h3, h4, h5, hmiss, slotError]
  · obtain ⟨a0, h0⟩ := Option.isSome_iff_exists.mp (hpre 0 (by decide))
    obtain ⟨a1, h1⟩ := Option.isSome_iff_exists.mp (hpre 1 (by decide))
    obtain ⟨a2, h2⟩ := Option.isSome_iff_exists.mp (hpre 2 (by decide))
    obtain ⟨a3, h3⟩ := Option.isSome_iff_exists.mp (hpre 3 (by decide))
    obtain ⟨a4, h4⟩ := Option.isSome_iff_exists.mp (hpre 4 (by decide))
    obtain ⟨a5, h5⟩ := Option.isSome_iff_exists.mp (hpre 5 (by decide))
    obtain ⟨a6, h6⟩ := Option.isSome_iff_exists.mp (hpre 6 (by decide))
    simp only [slotScan] at h0 h1 h2 h3 h4 h5 h6 hmiss
    have hkey : a4.key = bondingCurvePDA mint := by
      have := (scanSlot_some_mem h4).2
      simpa [isKeyP] using this
    simp [resolvePump, h0, h1, h2, h3, h4, h5, h6, hkey, hmiss, slotError]

/-- Witness for C5 (amended): the sub-range missing exactly the
global-config slot fails with that slot's code. -/
theorem C5_slot_errors_witness :
    resolvePump envW mintW sliceNoGlobal = .error (slotError 1) :=
  C5_slot_errors envW mintW sliceNoGlobal 1 (by decide) (by decide)

/-! Claim C6: the payload layout and its round-trip. -/

/-- C6: for any quantities and bounds below `2^64` (u64 range, including
0, 1 and the maximum), the buy payload is exactly
`[8-byte buy discriminator][le64 quantity][le64 bound]` and the sell
payload `[8-byte sell discriminator][le64 quantity][le64 bound]`, and
decoding bytes 8..16 and 16..24 little-endian recovers the quantity and
bound exactly for both operations. -/
theorem C6_payload_roundtrip (env : ExecEnv) (arb : ArbitrageParams)
    (r : ResolvedPumpAccounts) (bi : Instruction)
    (hq : arb.tokens_to_buy < 2 ^ 64) (hc : arb.max_sol_cost < 2 ^ 64)
    (hsq : arb.tokens_to_sell < 2 ^ 64) (hm : arb.min_wsol_out < 2 ^ 64) :
    (mkBuyInstr env arb r).data = buyDisc ++ le64 arb.tokens_to_buy ++ le64 arb.max_sol_cost ∧
    decodeLE (((mkBuyInstr env arb r).data.drop 8).take 8) = arb.tokens_to_buy ∧
    decodeLE ((mkBuyInstr env arb r).data.drop 16) = arb.max_sol_cost ∧
    (mkSellInstr arb bi).data = sellDisc ++ le64 arb.tokens_to_sell ++ le64 arb.min_wsol_out ∧
    decodeLE (((mkSellInstr arb bi).data.drop 8).take 8) = arb.tokens_to_sell ∧
    decodeLE ((mkSellInstr arb bi).data.drop 16) = arb.min_wsol_out := by
  refine ⟨rfl, ?_, ?_, rfl, ?_, ?_⟩ <;>
    · simp [mkBuyInstr, mkSellInstr, buyData, sellData, buyDisc, sellDisc, le64, decodeLE]
      omega

/-- Witness for C6 at the boundary values: maximum u64, 0 and 1. -/
theorem C6_payload_roundtrip_witness :
    (mkBuyInstr envW legBoundary rW).data =
      buyDisc ++ le64 legBoundary.tokens_to_buy ++ le64 legBoundary.max_sol_cost ∧
    decodeLE (((mkBuyInstr envW legBoundary rW).data.drop 8).take 8) =
      legBoundary.tokens_to_buy ∧
    decodeLE ((mkBuyInstr envW legBoundary rW).data.drop 16) = legBoundary.max_sol_cost ∧
    (mkSellInstr legBoundary (mkBuyInstr envW legBoundary rW)).data =
      sellDisc ++ le64 legBoundary.tokens_to_sell ++ le64 legBoundary.min_wsol_out ∧
    decodeLE (((mkSellInstr legBoundary (mkBuyInstr envW legBoundary rW)).data.drop 8).take 8) =
      legBoundary.tokens_to_sell ∧
    decodeLE ((mkSellInstr legBoundary (mkBuyInstr envW legBoundary rW)).data.drop 16) =
      legBoundary.min_wsol_out :=
  C6_payload_roundtrip envW legBoundary rW (mkBuyInstr envW legBoundary rW)
    (by decide) (by decide) (by decide) (by decide)

/-! Claim C7: Meteora legs.  A Meteora leg does fail with `InvalidDexType`
without resolution of that venue, but only when execution reaches it: the
pool-length check runs first (so a short pool yields
`InsufficientAccounts` instead), and earlier legs' calls are already
issued. -/

/-- C7 counterexample: a batch whose second leg names Meteora fails with
`InvalidDexType`, but the first leg's two calls were already issued — not
zero calls as the claim states. -/
theorem C7_counterexample :
    legMet.buy_dex = DexType.Meteora ∧
    execute_arbitrage_batch stW envW [legW, legMet, legMet, legMet] sliceW =
      .err .InvalidDexType
        [⟨mkBuyInstr envW legW rW, pumpInfos envW legW sliceW⟩,
         ⟨mkSellInstr legW (mkBuyInstr envW legW rW), pumpInfos envW legW sliceW⟩] := by
  refine ⟨rfl, by decide⟩

/-- C7 (amended): a leg whose buy venue is Meteora fails with
`InvalidDexType` without any resolution of its sub-range; a leg with
Pump.fun buy and Meteora sell fails with `InvalidDexType` once the buy
side resolves; and a leg failing inside the loop aborts the batch with
that error and exactly the previously issued calls (none of the failing
leg's own, none of later legs').  Legs before the Meteora leg execute
normally, so they may have issued calls, and the per-leg pool-length
check can fail first with `InsufficientAccounts`, as `C7_counterexample`
and `C2_counterexample` show. -/
theorem C7_meteora_leg :
    (∀ (env : ExecEnv) (arb : ArbitrageParams) (slice : List AccountInfo),
        arb.buy_dex = DexType.Meteora → execLeg env arb slice = .error .InvalidDexType) ∧
    (∀ (env : ExecEnv) (arb : ArbitrageParams) (slice : List AccountInfo)
        (r : ResolvedPumpAccounts),
        arb.buy_dex = DexType.PumpFun → arb.sell_dex = DexType.Meteora →
        resolvePump env arb.token_mint slice = .ok r →
        execLeg env arb slice = .error .InvalidDexType) ∧
    (∀ (env : ExecEnv) (arb : ArbitrageParams) (rest : List ArbitrageParams)
        (pool : List AccountInfo) (offset : Nat) (acc : List Call) (e : MyErrorCode),
        offset + arb.accounts_count ≤ pool.length →
        execLeg env arb ((pool.drop offset).take arb.accounts_count) = .error e →
        execLoop env (arb :: rest) pool offset acc = .err e acc) := by
  refine ⟨fun env arb slice hb => ?_, fun env arb slice r hb hs hr => ?_,
    fun env arb rest pool offset acc e hle hleg => ?_⟩
  · simp [execLeg, buildBuyInstr, hb]
  · simp [execLeg, buildBuyInstr, hb, hr, buildSellInstr, hs]
  · simp [execLoop, if_pos hle, hleg]

/-- Witness for C7 (amended): a concrete Meteora leg fails with
`InvalidDexType` and a loop starting at it aborts with no calls. -/
theorem C7_meteora_leg_witness :
    execLeg envW legMet [] = .error .InvalidDexType ∧
    execLoop envW [legMet] [] 0 [] = .err .InvalidDexType [] :=
  ⟨C7_meteora_leg.1 envW legMet [] rfl,
   C7_meteora_leg.2.2 envW legMet [] [] 0 [] .InvalidDexType (by decide)
     (C7_meteora_leg.1 envW legMet _ rfl)⟩

/-! Claim C8: the sell call reuses the buy call's accounts. -/

/-- C8: whenever a leg builds both of its calls, the sell call's account
list (with its mutability and signer flags) is exactly the buy call's,
its target program equals the buy call's target program, and the
`AccountInfo` list passed to the sell invocation equals the buy one. -/
theorem C8_sell_reuses_buy (env : ExecEnv) (arb : ArbitrageParams) (slice : List AccountInfo)
    (b s : Call) (h : execLeg env arb slice = .ok (b, s)) :
    s.instr.accounts = b.instr.accounts ∧ s.instr.programId = b.instr.programId ∧
    s.infos = b.infos := by
  unfold execLeg at h
  split at h
  · exact absurd h (by simp)
  · rename_i bi hbi
    split at h
    · exact absurd h (by simp)
    · rename_i si hsi
      simp only [Except.ok.injEq, Prod.mk.injEq] at h
      obtain ⟨hb', hs'⟩ := h
      subst hb'
      subst hs'
      rw [buildSellInstr] at hsi
      split at hsi
      · simp only [Except.ok.injEq] at hsi
        subst hsi
        refine ⟨rfl, ?_, rfl⟩
        rw [buildBuyInstr] at hbi
        split at hbi
        · split at hbi
          · exact absurd hbi (by simp)
          · rename_i r hr
            simp only [Except.ok.injEq] at hbi
            subst hbi
            rfl
        · exact absurd hbi (by simp)
      · exact absurd hsi (by simp)

/-- Witness for C8 on the concrete fully-populated leg. -/
theorem C8_sell_reuses_buy_witness :
    (⟨mkSellInstr legW (mkBuyInstr envW legW rW),
      pumpInfos envW legW sliceW⟩ : Call).instr.accounts =
        (⟨mkBuyInstr envW legW rW, pumpInfos envW legW sliceW⟩ : Call).instr.accounts ∧
    (⟨mkSellInstr legW (mkBuyInstr envW legW rW),
      pumpInfos envW legW sliceW⟩ : Call).instr.programId =
        (⟨mkBuyInstr envW legW rW, pumpInfos envW legW sliceW⟩ : Call).instr.programId ∧
    (⟨mkSellInstr legW (mkBuyInstr envW legW rW),
      pumpInfos envW legW sliceW⟩ : Call).infos =
        (⟨mkBuyInstr envW legW rW, pumpInfos envW legW sliceW⟩ : Call).infos :=
  C8_sell_reuses_buy envW legW sliceW _ _ (by decide)

/-! Claim C9: the pause toggle. -/

/-- C9: `toggle_pause` as a non-owner fails with `UnauthorizedAccess` and
leaves the state unchanged; as the owner it negates `is_paused` and leaves
`owner` and `bump` unchanged. -/
theorem C9_toggle_gate (st : RouterState) (k : Pubkey) :
    (k ≠ st.owner → toggle_pause st k = (st, .error .UnauthorizedAccess)) ∧
    (k = st.owner →
      toggle_pause st k =
        ({ owner := st.owner, is_paused := !st.is_paused, bump := st.bump }, .ok ())) := by
  refine ⟨fun h => ?_, fun h => ?_⟩
  · simp [toggle_pause, h]
  · simp [toggle_pause, h]

/-- Witness for C9 at a concrete state, for both a wrong signer and the
owner. -/
theorem C9_toggle_gate_witness :
    toggle_pause ⟨77, false, 5⟩ 66 = (⟨77, false, 5⟩, .error .UnauthorizedAccess) ∧
    toggle_pause ⟨77, false, 5⟩ 77 = (⟨77, true, 5⟩, .ok ()) :=
  ⟨(C9_toggle_gate ⟨77, false, 5⟩ 66).1 (by decide),
   (C9_toggle_gate ⟨77, false, 5⟩ 77).2 rfl⟩

/-! Claim C10: the slice is always in bounds. -/

/-- C10: every slice `[start, end)` actually taken by the batch executor
satisfies `start ≤ end` (the count added to the offset is a non-negative
natural, as the source's `u8` cast guarantees) and `end ≤ pool.length`
(checked before slicing), so the slice has exactly `end - start` elements
and never reaches past the pool. -/
theorem C10_slice_in_bounds (st : RouterState) (env : ExecEnv) (arbs : List ArbitrageParams)
    (pool : List AccountInfo) (se : Nat × Nat)
    (hmem : se ∈ (execute_arbitrage_batchB st env arbs pool).1) :
    se.1 ≤ se.2 ∧ se.2 ≤ pool.length ∧
      ((pool.drop se.1).take (se.2 - se.1)).length = se.2 - se.1 := by
  unfold execute_arbitrage_batchB at hmem
  split at hmem
  · simp at hmem
  · have h := execLoopB_bounds_inv env arbs pool 0 [] se hmem
    refine ⟨h.1, h.2, ?_⟩
    have h2 := h.2
    have h1 := h.1
    simp [List.length_take, List.length_drop]
    omega

/-- Witness for C10: the one slice taken by a one-leg batch over a
one-account pool is `[0, 1)` and lies in bounds. -/
theorem C10_slice_in_bounds_witness :
    (0 : Nat) ≤ 1 ∧ 1 ≤ ([accPump] : List AccountInfo).length ∧
      ((([accPump] : List AccountInfo).drop 0).take (1 - 0)).length = 1 - 0 :=
  C10_slice_in_bounds stW envW [legA1] [accPump] (0, 1) (by decide)
